import Mathlib

/-!
Verification of `src/img/png2argb.py` (`perform_conversion`).

The program reads a PAM container produced by an external decoder,
validates its shape and permutes every RGBA pixel group to ARGB order.
We embed the byte-level core as pure functions over `List Nat`
(one entry per byte) and model the single filesystem side effect
(opening and writing the output file) as an explicit event trace.
-/

/-- The 3-byte PAM signature checked by `pam.startswith(b"P7\n")`:
bytes of the string `P7` followed by a newline. -/
def sigP7 : List Nat := [80, 55, 10]

/-- The 8-byte end-of-header marker `b"\nENDHDR\n"` (`END_HEADER_CHUNK`
in the source). -/
def endHeaderChunk : List Nat := [10, 69, 78, 68, 72, 68, 82, 10]

/-- `leadMatch needle hay` is `bytes.startswith`: `hay` begins with the
exact byte sequence `needle`. -/
def leadMatch : List Nat → List Nat → Bool
  | [], _ => true
  | _ :: _, [] => false
  | n :: ns, h :: hs => n == h && leadMatch ns hs

/-- `findSub needle hay` is Python's `bytes.index`: the index of the
first occurrence of `needle` as a contiguous subsequence of `hay`,
or `none` (Python raises `ValueError`) when there is no occurrence. -/
def findSub : List Nat → List Nat → Option Nat
  | needle, [] => if leadMatch needle [] then some 0 else none
  | needle, h :: t =>
    if leadMatch needle (h :: t) then some 0
    else (findSub needle t).map (fun k => k + 1)

/-- The byte-consuming loop of `perform_conversion`: pull four bytes
`r, g, b, a` per iteration and emit them as `a, r, g, b`; stop cleanly
when the iterator is exhausted at a group boundary (`r is None`), and
fail (`next` raises `StopIteration`) when the data runs out inside a
group. -/
def rearrange : List Nat → Option (List Nat)
  | [] => some []
  | [_] => none
  | [_, _] => none
  | [_, _, _] => none
  | r :: g :: b :: a :: rest =>
    (rearrange rest).map (fun t => a :: r :: g :: b :: t)

/-- The distinct fatal errors `perform_conversion` can raise after the
decoder has produced its output. -/
inductive ConvError
  | invalidPam
  | markerNotFound
  | wrongLength
  | stopIteration
deriving DecidableEq, Repr

/-- Filesystem effects of `perform_conversion`: the only one is opening
the output path for writing and writing a byte sequence to it. -/
inductive FsEvent
  | openWrite (data : List Nat)
deriving DecidableEq, Repr

/-- Straight-line embedding of `perform_conversion` from the decoder
output `pam` onward: returns the outcome (converted bytes or the error
raised) together with the ordered trace of filesystem events the
execution performs.  Mirrors the source line by line: signature check,
`pam.index(END_HEADER_CHUNK)`, payload slice `pam[end_header_index:]`,
length check against `4 * 32 * 32`, the rearranging loop, and finally
`open(output_bin_path, "wb")` / `f.write(argb_data)`. -/
def perform_conversion (pam : List Nat) :
    Except ConvError (List Nat) × List FsEvent :=
  if leadMatch sigP7 pam = false then
    (Except.error ConvError.invalidPam, [])
  else
    match findSub endHeaderChunk pam with
    | none => (Except.error ConvError.markerNotFound, [])
    | some endHeaderStartIndex =>
      let endHeaderIndex := endHeaderStartIndex + endHeaderChunk.length
      let pamData := pam.drop endHeaderIndex
      if pamData.length ≠ 4 * 32 * 32 then
        (Except.error ConvError.wrongLength, [])
      else
        match rearrange pamData with
        | none => (Except.error ConvError.stopIteration, [])
        | some argbData => (Except.ok argbData, [FsEvent.openWrite argbData])

/-- The pure conversion outcome (the spec's `convert`):
`perform_conversion` without its event trace. -/
def convert (pam : List Nat) : Except ConvError (List Nat) :=
  (perform_conversion pam).1

/-- Flatten a list of pixels, each given as `(r, g, b, a)`, into the
payload byte order `r, g, b, a`. -/
def flattenRGBA : List (Nat × Nat × Nat × Nat) → List Nat
  | [] => []
  | (r, g, b, a) :: t => r :: g :: b :: a :: flattenRGBA t

/-- Flatten a list of pixels, each given as `(r, g, b, a)`, into the
output byte order `a, r, g, b`. -/
def flattenARGB : List (Nat × Nat × Nat × Nat) → List Nat
  | [] => []
  | (r, g, b, a) :: t => a :: r :: g :: b :: flattenARGB t

/-- `n` repetitions of a byte group, concatenated. -/
def repBytes (n : Nat) (g : List Nat) : List Nat :=
  match n with
  | 0 => []
  | n + 1 => g ++ repBytes n g

/-- `needle` occurs in `hay` starting at byte offset `i`. -/
def occursAt (needle hay : List Nat) (i : Nat) : Prop :=
  leadMatch needle (hay.drop i) = true

/-- The payload-processing tail of `perform_conversion`: length check
followed by the rearranging loop, as a function of the payload alone. -/
def processPayload (p : List Nat) : Except ConvError (List Nat) :=
  if p.length ≠ 4 * 32 * 32 then Except.error ConvError.wrongLength
  else
    match rearrange p with
    | none => Except.error ConvError.stopIteration
    | some argbData => Except.ok argbData

/-- 1024 identical demonstration pixels. -/
def demoPixels : List (Nat × Nat × Nat × Nat) := List.replicate 1024 (1, 2, 3, 4)

/-- A minimal well-formed container holding `demoPixels`. -/
def demoContainer : List Nat := sigP7 ++ endHeaderChunk ++ flattenRGBA demoPixels

/-- A well-formed container whose header holds arbitrary uninspected
bytes (here the letters of `WIDTH`) between signature and marker. -/
def junkHeaderContainer : List Nat :=
  sigP7 ++ [87, 73, 68, 84, 72] ++ endHeaderChunk ++ List.replicate 4096 0

/-- A container in which the end-of-header marker bytes occur twice;
the second occurrence lies inside the 4096-byte payload. -/
def doubleMarkerContainer : List Nat :=
  sigP7 ++ endHeaderChunk ++ endHeaderChunk ++ List.replicate 4088 9

/-- The container of the concrete spec scenario: payload is 1024
repetitions of the group `0x10 0x20 0x30 0x40`. -/
def uniformContainer : List Nat :=
  sigP7 ++ endHeaderChunk ++ repBytes 1024 [16, 32, 48, 64]

/-- A container with a valid signature and marker but a 3-byte payload. -/
def shortContainer : List Nat := sigP7 ++ endHeaderChunk ++ [1, 2, 3]

theorem flattenRGBA_length (ps : List (Nat × Nat × Nat × Nat)) :
    (flattenRGBA ps).length = 4 * ps.length := by
  induction ps with
  | nil => simp [flattenRGBA]
  | cons p t ih =>
    obtain ⟨r, g, b, a⟩ := p
    simp [flattenRGBA, ih]
    omega

theorem flattenARGB_length (ps : List (Nat × Nat × Nat × Nat)) :
    (flattenARGB ps).length = 4 * ps.length := by
  induction ps with
  | nil => simp [flattenARGB]
  | cons p t ih =>
    obtain ⟨r, g, b, a⟩ := p
    simp [flattenARGB, ih]
    omega

theorem rearrange_flatten (ps : List (Nat × Nat × Nat × Nat)) :
    rearrange (flattenRGBA ps) = some (flattenARGB ps) := by
  induction ps with
  | nil => rfl
  | cons p t ih =>
    obtain ⟨r, g, b, a⟩ := p
    simp [flattenRGBA, flattenARGB, rearrange, ih]

theorem rearrange_length : ∀ (l out : List Nat),
    rearrange l = some out → out.length = l.length := by
  intro l
  induction l using rearrange.induct with
  | case1 => intro out h; simp [rearrange] at h; simp [h.symm]
  | case2 _ => intro out h; simp [rearrange] at h
  | case3 _ _ => intro out h; simp [rearrange] at h
  | case4 _ _ _ => intro out h; simp [rearrange] at h
  | case5 r g b a rest ih =>
    intro out h
    simp [rearrange] at h
    obtain ⟨t, ht, rfl⟩ := h
    simp [ih t ht]

theorem rearrange_some_of_mult : ∀ (l : List Nat), l.length % 4 = 0 →
    ∃ out, rearrange l = some out ∧ out.length = l.length := by
  intro l
  induction l using rearrange.induct with
  | case1 => intro _; exact ⟨[], rfl, rfl⟩
  | case2 x => intro h; simp at h
  | case3 x y => intro h; simp at h
  | case4 x y z => intro h; simp at h
  | case5 r g b a rest ih =>
    intro h
    simp only [List.length_cons] at h
    have hrest : rest.length % 4 = 0 := by omega
    obtain ⟨t, ht, hlen⟩ := ih hrest
    refine ⟨a :: r :: g :: b :: t, ?_, ?_⟩
    · simp [rearrange, ht]
    · simp [hlen]

theorem rearrange_none_of_not_mult : ∀ (l : List Nat), l.length % 4 ≠ 0 →
    rearrange l = none := by
  intro l
  induction l using rearrange.induct with
  | case1 => intro h; simp at h
  | case2 x => intro _; rfl
  | case3 x y => intro _; rfl
  | case4 x y z => intro _; rfl
  | case5 r g b a rest ih =>
    intro h
    simp only [List.length_cons] at h
    have hrest : rest.length % 4 ≠ 0 := by omega
    simp [rearrange, ih hrest]

theorem findSub_first : ∀ (needle hay : List Nat) (i : Nat),
    findSub needle hay = some i →
    leadMatch needle (hay.drop i) = true ∧
    ∀ j, j < i → leadMatch needle (hay.drop j) = false := by
  intro needle hay
  induction hay with
  | nil =>
    intro i h
    simp only [findSub] at h
    by_cases hm : leadMatch needle [] = true
    · simp [hm] at h
      exact ⟨by simpa [h.symm] using hm, by omega⟩
    · simp [hm] at h
  | cons x t ih =>
    intro i h
    simp only [findSub] at h
    by_cases hm : leadMatch needle (x :: t) = true
    · simp [hm] at h
      subst h
      exact ⟨by simpa using hm, by omega⟩
    · simp [hm] at h
      obtain ⟨k, hk, rfl⟩ := h
      obtain ⟨h1, h2⟩ := ih k hk
      constructor
      · simpa using h1
      · intro j hj
        match j with
        | 0 => simpa using hm
        | j + 1 =>
          have := h2 j (by omega)
          simpa using this

theorem repBytes_length (n : Nat) (g : List Nat) :
    (repBytes n g).length = n * g.length := by
  induction n with
  | zero => simp [repBytes]
  | succ n ih => simp [repBytes, ih]; ring

theorem rearrange_repBytes (n : Nat) (r g b a : Nat) :
    rearrange (repBytes n [r, g, b, a]) = some (repBytes n [a, r, g, b]) := by
  induction n with
  | zero => rfl
  | succ n ih => simp [repBytes, rearrange, ih]

theorem convert_eq_processPayload (c : List Nat) (i : Nat)
    (hsig : leadMatch sigP7 c = true)
    (hfind : findSub endHeaderChunk c = some i) :
    convert c = processPayload (c.drop (i + 8)) := by
  have h8 : endHeaderChunk.length = 8 := rfl
  by_cases hlen : c.length - (i + 8) = 4096
  · cases hr : rearrange (c.drop (i + 8)) with
    | none =>
      simp [convert, perform_conversion, processPayload, hsig, hfind, h8, hlen, hr]
    | some t =>
      simp [convert, perform_conversion, processPayload, hsig, hfind, h8, hlen, hr]
  · simp [convert, perform_conversion, processPayload, hsig, hfind, h8, hlen]

/-- C1: for every container that starts with the 3-byte signature, whose
bytes after the first end-of-header marker are exactly the 1024 pixel
groups `(r_i, g_i, b_i, a_i)` (4096 bytes), the conversion succeeds and
returns exactly the 4096 bytes `(a_i, r_i, g_i, b_i)` in the same pixel
order. -/
theorem convert_rgba_to_argb (c : List Nat) (ps : List (Nat × Nat × Nat × Nat))
    (i : Nat) (hsig : leadMatch sigP7 c = true)
    (hfind : findSub endHeaderChunk c = some i)
    (hpay : c.drop (i + 8) = flattenRGBA ps) (hlen : ps.length = 1024) :
    convert c = Except.ok (flattenARGB ps) := by
  rw [convert_eq_processPayload c i hsig hfind, hpay]
  have hl : (flattenRGBA ps).length = 4 * 32 * 32 := by
    rw [flattenRGBA_length, hlen]
  simp [processPayload, hl, rearrange_flatten]

theorem convert_rgba_to_argb_witness :
    convert demoContainer = Except.ok (flattenARGB demoPixels) :=
  convert_rgba_to_argb demoContainer demoPixels 3 rfl rfl rfl
    (by rw [demoPixels, List.length_replicate])

/-- C2: whenever the conversion succeeds, the output has exactly the
length of the validated payload, namely `4 * 32 * 32 = 4096` bytes. -/
theorem convert_ok_length (c : List Nat) (out : List Nat)
    (h : convert c = Except.ok out) :
    ∃ i, findSub endHeaderChunk c = some i ∧
      out.length = (c.drop (i + 8)).length ∧ out.length = 4 * 32 * 32 := by
  by_cases hsig : leadMatch sigP7 c = true
  · cases hfind : findSub endHeaderChunk c with
    | none =>
      rw [show convert c = Except.error ConvError.markerNotFound from by
        simp [convert, perform_conversion, hsig, hfind]] at h
      simp at h
    | some i =>
      rw [convert_eq_processPayload c i hsig hfind] at h
      unfold processPayload at h
      by_cases hlen : (c.drop (i + 8)).length = 4 * 32 * 32
      · rw [if_neg (fun hn => hn hlen)] at h
        cases hr : rearrange (c.drop (i + 8)) with
        | none => rw [hr] at h; simp at h
        | some t =>
          rw [hr] at h
          simp only [Except.ok.injEq] at h
          subst h
          exact ⟨i, rfl, rearrange_length _ _ hr,
            by rw [rearrange_length _ _ hr]; exact hlen⟩
      · rw [if_pos hlen] at h
        simp at h
  · rw [show convert c = Except.error ConvError.invalidPam from by
      have hf : leadMatch sigP7 c = false := by simpa using hsig
      simp [convert, perform_conversion, hf]] at h
    simp at h

theorem convert_ok_length_witness :
    ∃ i, findSub endHeaderChunk demoContainer = some i ∧
      (flattenARGB demoPixels).length = (demoContainer.drop (i + 8)).length ∧
      (flattenARGB demoPixels).length = 4 * 32 * 32 :=
  convert_ok_length demoContainer (flattenARGB demoPixels) (by
    rw [convert_eq_processPayload demoContainer 3 rfl rfl]
    show processPayload (flattenRGBA demoPixels) = _
    have hl : (flattenRGBA demoPixels).length = 4 * 32 * 32 := by
      rw [flattenRGBA_length, demoPixels, List.length_replicate]
    simp [processPayload, hl, rearrange_flatten])

/-- C3: a container that does not start with the signature `P7\n` is
rejected as an invalid PAM file, with no header search and no payload
inspection influencing the outcome and no filesystem event performed. -/
theorem reject_bad_signature (c : List Nat)
    (h : leadMatch sigP7 c = false) :
    perform_conversion c = (Except.error ConvError.invalidPam, []) := by
  simp [perform_conversion, h]

theorem reject_bad_signature_witness :
    perform_conversion [0] = (Except.error ConvError.invalidPam, []) :=
  reject_bad_signature [0] rfl

/-- C4: a container with a valid signature but no occurrence of the
end-of-header marker fails with the lookup failure of `bytes.index` and
performs no filesystem event. -/
theorem reject_missing_marker (c : List Nat)
    (hsig : leadMatch sigP7 c = true)
    (h : findSub endHeaderChunk c = none) :
    perform_conversion c = (Except.error ConvError.markerNotFound, []) := by
  simp [perform_conversion, hsig, h]

theorem reject_missing_marker_witness :
    perform_conversion sigP7 = (Except.error ConvError.markerNotFound, []) :=
  reject_missing_marker sigP7 rfl rfl

/-- C5: for every container with a valid signature and a located
end-of-header marker, the conversion fails with the wrong-length
validation error exactly when the payload is not `4 * 32 * 32 = 4096`
bytes, and succeeds when it is exactly 4096 bytes. -/
theorem length_check_iff (c : List Nat) (i : Nat)
    (hsig : leadMatch sigP7 c = true)
    (hfind : findSub endHeaderChunk c = some i) :
    (convert c = Except.error ConvError.wrongLength ↔
      (c.drop (i + 8)).length ≠ 4 * 32 * 32) ∧
    ((c.drop (i + 8)).length = 4 * 32 * 32 →
      ∃ out, convert c = Except.ok out) := by
  have hc := convert_eq_processPayload c i hsig hfind
  have hok : (c.drop (i + 8)).length = 4 * 32 * 32 →
      ∃ out, convert c = Except.ok out := by
    intro hlen
    obtain ⟨out, hout, _⟩ :=
      rearrange_some_of_mult (c.drop (i + 8)) (by omega)
    refine ⟨out, ?_⟩
    rw [hc]
    unfold processPayload
    rw [if_neg (fun hn => hn hlen), hout]
  refine ⟨⟨?_, ?_⟩, hok⟩
  · intro h hlen
    obtain ⟨out, hout⟩ := hok hlen
    rw [hout] at h
    simp at h
  · intro hlen
    rw [hc]
    unfold processPayload
    rw [if_pos hlen]

theorem length_check_iff_witness :
    ((convert shortContainer = Except.error ConvError.wrongLength ↔
      (shortContainer.drop (3 + 8)).length ≠ 4 * 32 * 32) ∧
    ((shortContainer.drop (3 + 8)).length = 4 * 32 * 32 →
      ∃ out, convert shortContainer = Except.ok out)) :=
  length_check_iff shortContainer 3 rfl rfl

/-- C7: the byte-consuming loop is total on any payload whose length is
a multiple of 4 and consumes all bytes; on any other length it signals
the mid-group exhaustion failure instead of emitting a short output; and
within the conversion, whose payload is pre-validated to 4096 bytes, the
mid-group failure branch is unreachable. -/
theorem loop_total_on_valid_payload :
    (∀ l : List Nat, l.length % 4 = 0 →
      ∃ out, rearrange l = some out ∧ out.length = l.length) ∧
    (∀ l : List Nat, l.length % 4 ≠ 0 → rearrange l = none) ∧
    (∀ c : List Nat,
      (perform_conversion c).1 ≠ Except.error ConvError.stopIteration) := by
  refine ⟨rearrange_some_of_mult, rearrange_none_of_not_mult, ?_⟩
  intro c
  by_cases hsig : leadMatch sigP7 c = true
  · cases hfind : findSub endHeaderChunk c with
    | none => simp [perform_conversion, hsig, hfind]
    | some i =>
      have h8 : endHeaderChunk.length = 8 := rfl
      by_cases hlen : (c.drop (i + 8)).length = 4 * 32 * 32
      · obtain ⟨out, hout, _⟩ :=
          rearrange_some_of_mult (c.drop (i + 8)) (by omega)
        rw [List.length_drop] at hlen
        simp [perform_conversion, hsig, hfind, h8, hlen, hout]
      · rw [List.length_drop] at hlen
        simp [perform_conversion, hsig, hfind, h8, hlen]
  · have hf : leadMatch sigP7 c = false := by simpa using hsig
    simp [perform_conversion, hf]

theorem loop_total_witness :
    (∃ out, rearrange [5, 6, 7, 8] = some out ∧
      out.length = ([5, 6, 7, 8] : List Nat).length) ∧
    rearrange [5, 6] = none ∧
    (perform_conversion []).1 ≠ Except.error ConvError.stopIteration :=
  ⟨loop_total_on_valid_payload.1 [5, 6, 7, 8] rfl,
   loop_total_on_valid_payload.2.1 [5, 6] (by decide),
   loop_total_on_valid_payload.2.2 []⟩

/-- C6: for the container whose payload is 1024 repetitions of the
group `0x10 0x20 0x30 0x40`, the conversion returns exactly 1024
repetitions of `0x40 0x10 0x20 0x30`. -/
theorem convert_uniform_icon :
    convert uniformContainer = Except.ok (repBytes 1024 [64, 16, 32, 48]) := by
  have hfind : findSub endHeaderChunk uniformContainer = some 3 := rfl
  have hsig : leadMatch sigP7 uniformContainer = true := rfl
  have hdrop : uniformContainer.drop (3 + 8) = repBytes 1024 [16, 32, 48, 64] := rfl
  rw [convert_eq_processPayload uniformContainer 3 hsig hfind, hdrop]
  have hlen : (repBytes 1024 ([16, 32, 48, 64] : List Nat)).length = 4 * 32 * 32 := by
    rw [repBytes_length]; rfl
  unfold processPayload
  rw [if_neg (fun hn => hn hlen), rearrange_repBytes]

/-- C8: on every failing execution (bad signature, missing marker, or
wrong payload length) the filesystem-event trace is empty: the output
file is never opened or written. -/
theorem no_output_on_failure (c : List Nat) (e : ConvError)
    (h : (perform_conversion c).1 = Except.error e) :
    (perform_conversion c).2 = [] := by
  by_cases hsig : leadMatch sigP7 c = true
  · cases hfind : findSub endHeaderChunk c with
    | none => simp [perform_conversion, hsig, hfind]
    | some i =>
      have h8 : endHeaderChunk.length = 8 := rfl
      by_cases hlen : c.length - (i + 8) = 4096
      · cases hre : rearrange (c.drop (i + 8)) with
        | none => simp [perform_conversion, hsig, hfind, h8, hlen, hre]
        | some out =>
          rw [show (perform_conversion c).1 = Except.ok out from by
            simp [perform_conversion, hsig, hfind, h8, hlen, hre]] at h
          simp at h
      · simp [perform_conversion, hsig, hfind, h8, hlen]
  · have hf : leadMatch sigP7 c = false := by simpa using hsig
    simp [perform_conversion, hf]

theorem no_output_on_failure_witness :
    (perform_conversion [7]).2 = [] :=
  no_output_on_failure [7] ConvError.invalidPam rfl

/-- C9: a container with a valid signature whose first end-of-header
marker is followed by exactly 4096 bytes converts successfully, with no
constraint on -- and no inspection of -- the header bytes between the
signature and the marker (depth, maxval, tuple type). -/
theorem header_not_inspected (c : List Nat) (i : Nat)
    (hsig : leadMatch sigP7 c = true)
    (hfind : findSub endHeaderChunk c = some i)
    (hlen : (c.drop (i + 8)).length = 4 * 32 * 32) :
    ∃ out, convert c = Except.ok out := by
  obtain ⟨out, hout, _⟩ :=
    rearrange_some_of_mult (c.drop (i + 8)) (by omega)
  refine ⟨out, ?_⟩
  rw [convert_eq_processPayload c i hsig hfind]
  unfold processPayload
  rw [if_neg (fun hn => hn hlen), hout]

theorem header_not_inspected_witness :
    ∃ out, convert junkHeaderContainer = Except.ok out :=
  header_not_inspected junkHeaderContainer 8 rfl rfl
    (by rw [show junkHeaderContainer.drop (8 + 8) = List.replicate 4096 (0 : Nat)
              from rfl,
            List.length_replicate])

/-- C10: the header/payload boundary is the FIRST occurrence of the
8-byte end-of-header marker: the marker occurs at the located index and
at no earlier index, and the conversion outcome is entirely determined
by the bytes after that first occurrence, so later occurrences of the
marker bytes are ordinary payload data subject to the length check. -/
theorem first_marker_is_boundary (c : List Nat) (i : Nat)
    (hsig : leadMatch sigP7 c = true)
    (hfind : findSub endHeaderChunk c = some i) :
    occursAt endHeaderChunk c i ∧
    (∀ j, j < i → ¬ occursAt endHeaderChunk c j) ∧
    convert c = processPayload (c.drop (i + 8)) := by
  obtain ⟨h1, h2⟩ := findSub_first endHeaderChunk c i hfind
  exact ⟨h1, fun j hj => by simp [occursAt, h2 j hj],
    convert_eq_processPayload c i hsig hfind⟩

theorem first_marker_is_boundary_witness :
    occursAt endHeaderChunk doubleMarkerContainer 3 ∧
    (∀ j, j < 3 → ¬ occursAt endHeaderChunk doubleMarkerContainer j) ∧
    convert doubleMarkerContainer =
      processPayload (doubleMarkerContainer.drop (3 + 8)) :=
  first_marker_is_boundary doubleMarkerContainer 3 rfl rfl
